import Mathlib

/-!
Shallow embedding of the core of Mava's `ParallelNStepTransitionAdder`
(`mava/adders/reverb/transition.py`) and of the sebulba PPO learner loop
(`mava/systems/ppo/sebulba/ff_ippo.py`), together with proofs about the
properties of that code.

Numeric values (rewards, discounts, priorities) are modelled as rationals,
idealising the float32 arithmetic of the source.
-/

namespace Mava

/-! ## N-step cumulative quantities (`_compute_cumulative_quantities`)

The source operates leaf-wise over flattened reward/discount trees; a single
leaf with scalar entries is embedded.  `rewards i` / `discounts i` are the
`i`-th entries of the sliced reward/discount sequences, `sd` is the agent's
extra discount `self._discount`, and `k` plays the role of `self._n_step`
(the window length, equal to the length of the sliced sequences). -/

/-- One iteration of the loop body in `_compute_cumulative_quantities`:
`td *= sd; nsr += rewards[i] * td; td *= discounts[i]`. -/
def cumStep (rewards discounts : ℕ → ℚ) (sd : ℚ) (st : ℚ × ℚ) (i : ℕ) : ℚ × ℚ :=
  let td := st.2 * sd
  let nsr := st.1 + rewards i * td
  (nsr, td * discounts i)

/-- `_compute_cumulative_quantities` on one leaf: the state is initialised to
`(rewards[0], discounts[0])` and the loop runs over `range(1, k)`.  Returns
`(n_step_return, total_discount)`. -/
def computeCumulativeQuantities (k : ℕ) (rewards discounts : ℕ → ℚ) (sd : ℚ) : ℚ × ℚ :=
  (List.range' 1 (k - 1)).foldl (cumStep rewards discounts sd) (rewards 0, discounts 0)

/-! ## Window pointers (`add`, `reset`, `_n_step`, `_write_last`) -/

/-- The pointer state of a `ParallelNStepTransitionAdder`: the configured
`n_step` together with `self._first_idx`, `self._last_idx` and the underlying
writer's `episode_steps` counter.  `episode_steps` belongs to the external
trajectory-writer collaborator; following its contract it counts the steps
completed since the last reset (a partially appended step is not counted). -/
structure TransitionAdder where
  n_step : ℕ
  first_idx : ℕ
  last_idx : ℕ
  episode_steps : ℕ
  deriving DecidableEq, Repr

/-- The constructor (`__init__`): stores `n_step` and zero-initialises both
window pointers.  The source performs no validation of `n_step` whatsoever
(its docstring promises a `ValueError` for `n_step < 1`, but no check exists
in the code), so construction always succeeds. -/
def initAdder (n_step : ℕ) : TransitionAdder :=
  { n_step := n_step, first_idx := 0, last_idx := 0, episode_steps := 0 }

/-- The pointer bookkeeping of `add`: if `episode_steps >= n_step` then
`first_idx += 1`; always `last_idx += 1`.  The delegated `super().add(...)`
then completes one buffered step, which increments the writer's
`episode_steps` by one. -/
def TransitionAdder.add (a : TransitionAdder) : TransitionAdder :=
  let first := if a.n_step ≤ a.episode_steps then a.first_idx + 1 else a.first_idx
  { a with first_idx := first, last_idx := a.last_idx + 1,
           episode_steps := a.episode_steps + 1 }

/-- `reset`: the base reset clears the writer (so `episode_steps` returns to
zero) and both pointers are restored to zero. -/
def TransitionAdder.reset (a : TransitionAdder) : TransitionAdder :=
  { a with first_idx := 0, last_idx := 0, episode_steps := 0 }

/-- The `_n_step` property: the effective window size `last_idx - first_idx`. -/
def TransitionAdder.nStepEff (a : TransitionAdder) : ℕ :=
  a.last_idx - a.first_idx

/-- Modelled from the spec: the base adder (`mava.adders.reverb.base`, not
part of the sources embedded here) triggers exactly one `_write()` after the
bookkeeping of each `add` call, since after every appended step at least one
full or partial transition is available.  `runAdds` performs `t` such `add`
calls, recording the effective window size seen by each triggered `_write`. -/
def runAdds (a : TransitionAdder) : ℕ → TransitionAdder × List ℕ
  | 0 => (a, [])
  | Nat.succ t =>
    let a' := a.add
    let r := runAdds a' t
    (r.1, a'.nStepEff :: r.2)

/-- Body of the `while self._first_idx < self._last_idx` loop of
`_write_last`: each surviving iteration calls `_write()` (emitting the
current effective window size `last - first`) and then increments `first`.
The loop is realised by structural recursion on the remaining gap
`last - first`, which reaches `0` exactly when the guard fails. -/
def writeLastGo (last : ℕ) : ℕ → ℕ → List ℕ
  | _, 0 => []
  | first, Nat.succ g => (last - first) :: writeLastGo last (first + 1) g

/-- Loop of `_write_last` after its initial `first_idx += 1`: while
`first_idx < last_idx`, call `_write()` (emitting the current effective
window size) and then increment `first_idx`. -/
def writeLastSizesAux (first last : ℕ) : List ℕ :=
  writeLastGo last first (last - first)

/-- `_write_last`: increment `first_idx`, then alternate `_write()` and
`first_idx += 1` while `first_idx < last_idx`; returns the effective window
sizes of the emitted tail transitions. -/
def TransitionAdder.writeLastSizes (a : TransitionAdder) : List ℕ :=
  writeLastSizesAux (a.first_idx + 1) a.last_idx

/-- Effective window sizes of all transitions emitted for one episode of
length `T` under configuration `n_step = N`: the writes triggered by the `T`
`add` calls followed by the tail writes of `_write_last`. -/
def episodeWriteSizes (N T : ℕ) : List ℕ :=
  let r := runAdds (initAdder N) T
  r.2 ++ r.1.writeLastSizes

/-- Reachability invariant of the pointer state within one live episode:
`episode_steps` tracks `last_idx`, and `first_idx` lags `last_idx` by the
clipped window `min last_idx n_step`. -/
def adderInv (a : TransitionAdder) : Prop :=
  a.episode_steps = a.last_idx ∧ a.first_idx = a.last_idx - min a.last_idx a.n_step

/-! ## Table routing inside `_write`

The routing step of `_write` is embedded over an abstract payload type `V`
(one per-agent leaf value for each field).  The pre-routing transition is
represented by its per-agent field values together with the per-agent network
keys read from `transition.extras["network_keys"]` (the string conversion of
the stored tensor is modelled away).  `agents` stands for the iteration order
`sorted(transition.action.keys())`.  Python failure modes are explicit:
subscripting `None` is a `TypeError`, a failed dict subscript a `KeyError`,
an out-of-range list index an `IndexError`, and the final unrouted-transition
check raises `ValidationError` carrying `transition.action.keys()`. -/

/-- Python error outcomes reachable in the routing code of `_write`. -/
inductive PyErr where
  | typeError : PyErr
  | keyError : PyErr
  | indexError : PyErr
  | validationError : List String → PyErr
  deriving DecidableEq, Repr

/-- The pre-routing transition assembled by `_write`, viewed through its
per-agent leaves: field values for each agent id plus the per-agent network
key assignment from `extras["network_keys"]`. -/
structure SrcTransition (V : Type) where
  observation : String → V
  action : String → V
  reward : String → V
  discount : String → V
  next_observation : String → V
  netKeys : String → String

/-- A routed transition built inside the table loop of `_write`: each field
is a Python dict, modelled as an insertion-ordered association list. -/
structure RoutedTransition (V : Type) where
  observation : List (String × V)
  extras : List (String × V)
  action : List (String × V)
  reward : List (String × V)
  discount : List (String × V)
  next_observation : List (String × V)
  next_extras : List (String × V)
  deriving DecidableEq, Repr

/-- The empty routed transition: `_write` initialises every field to `{}`. -/
def emptyRouted (V : Type) : RoutedTransition V :=
  { observation := [], extras := [], action := [], reward := [], discount := [],
    next_observation := [], next_extras := [] }

/-- The dict comprehension
`{str(net_keys[agent]...): agent for agent in agents}`, as the ordered list
of its insertions. -/
def buildTransNetsAgent (agents : List String) (netKeys : String → String) :
    List (String × String) :=
  agents.map (fun agent => (netKeys agent, agent))

/-- Python dict subscript on an insertion list: the value of the last
insertion with the given key, if any. -/
def pyDictGet (d : List (String × String)) (k : String) : Option String :=
  ((d.filter (fun p => p.1 == k)).getLast?).map Prod.snd

/-- Python `key in dict.keys()` on an insertion list. -/
def pyDictHasKey (d : List (String × String)) (k : String) : Bool :=
  d.any (fun p => p.1 == k)

/-- The guard `not self._table_net_config or all(elem in trans_nets_agent.keys()
for elem in self._table_net_config[table])`.  A falsy config (absent, or an
empty dict) short-circuits to true; otherwise the subscript
`self._table_net_config[table]` may raise `KeyError`. -/
def tableCheck (cfg : Option (List (String × List String))) (table : String)
    (d : List (String × String)) : Except PyErr Bool :=
  match cfg with
  | none => .ok true
  | some m =>
    if m.isEmpty then .ok true
    else
      match m.lookup table with
      | none => .error .keyError
      | some req => .ok (req.all (fun k => pyDictHasKey d k))

/-- The reindexing loop `for a_i, net_key in enumerate(self._table_net_config[table])`:
look up `cur_agent = trans_nets_agent[net_key]`, then `want_agent = agents[a_i]`,
and assign the five copied fields into the routed dicts (the `extras` /
`next_extras` assignments are commented out in the source and never happen). -/
def reindexGo {V : Type} (t : SrcTransition V) (agents : List String)
    (d : List (String × String)) :
    ℕ → List String → RoutedTransition V → Except PyErr (RoutedTransition V)
  | _, [], acc => .ok acc
  | i, k :: ks, acc =>
    match pyDictGet d k with
    | none => .error .keyError
    | some cur =>
      match agents[i]? with
      | none => .error .indexError
      | some want =>
        reindexGo t agents d (i + 1) ks
          { observation := acc.observation ++ [(want, t.observation cur)]
            extras := acc.extras
            action := acc.action ++ [(want, t.action cur)]
            reward := acc.reward ++ [(want, t.reward cur)]
            discount := acc.discount ++ [(want, t.discount cur)]
            next_observation := acc.next_observation ++ [(want, t.next_observation cur)]
            next_extras := acc.next_extras }

/-- Body of the matched branch for one table: evaluate
`self._table_net_config[table]` again (a `TypeError` when the config is
`None`, a `KeyError` when the table is missing) and run the reindexing loop
starting from empty dicts. -/
def routeOne {V : Type} (cfg : Option (List (String × List String))) (table : String)
    (agents : List String) (t : SrcTransition V) : Except PyErr (RoutedTransition V) :=
  match cfg with
  | none => .error .typeError
  | some m =>
    match m.lookup table with
    | none => .error .keyError
    | some req => reindexGo t agents (buildTransNetsAgent agents t.netKeys) 0 req (emptyRouted V)

/-- The table loop of `_write` over `table_priorities.items()`, threading the
`created_item` flag and the list of items submitted via `create_item`; after
the loop (and the flush, a no-op here), `ValidationError` is raised when no
item was created. -/
def writeTablesGo {V : Type} (cfg : Option (List (String × List String)))
    (agents : List String) (t : SrcTransition V) :
    List (String × ℚ) → Bool → List (String × ℚ × RoutedTransition V) →
    Except PyErr (List (String × ℚ × RoutedTransition V))
  | [], created, items =>
    if created then .ok items else .error (.validationError agents)
  | (table, pr) :: rest, created, items =>
    match tableCheck cfg table (buildTransNetsAgent agents t.netKeys) with
    | .error e => .error e
    | .ok false => writeTablesGo cfg agents t rest created items
    | .ok true =>
      match routeOne cfg table agents t with
      | .error e => .error e
      | .ok routed => writeTablesGo cfg agents t rest true (items ++ [(table, pr, routed)])

/-- The routing portion of `_write`: given the per-table priorities computed
by `calculate_priorities`, route the transition and return the items created,
or the Python error raised. -/
def writeTables {V : Type} (cfg : Option (List (String × List String)))
    (tables : List (String × ℚ)) (agents : List String) (t : SrcTransition V) :
    Except PyErr (List (String × ℚ × RoutedTransition V)) :=
  writeTablesGo cfg agents t tables false []

/-- A network key is assigned to some agent of the transition. -/
def keyAssigned (agents : List String) (netKeys : String → String) (k : String) : Prop :=
  ∃ a ∈ agents, netKeys a = k

/-- A table's full required network-key list is present among the
transition's assigned network keys. -/
def tableSatisfied (agents : List String) (netKeys : String → String)
    (req : List String) : Prop :=
  ∀ k ∈ req, keyAssigned agents netKeys k

/-- A destination table (by name) whose required key list, as recorded in the
`table_net_config` mapping, is fully present among the transition's assigned
network keys. -/
def tableMatchesCfg (m : List (String × List String)) (agents : List String)
    (netKeys : String → String) (table : String) : Prop :=
  ∃ req, m.lookup table = some req ∧ tableSatisfied agents netKeys req

/-- The agent whose data fills the slot of network key `k`: the result of the
dict lookup `trans_nets_agent[net_key]`, defaulting to the empty string in
the (unreached on success) missing-key case; used to state lemmas about the
reindexing loop. -/
def srcAgent (d : List (String × String)) (k : String) : String :=
  (pyDictGet d k).getD ""

/-! ## The sebulba learner loop (`learner` in `ff_ippo.py`)

One inner iteration over `num_updates_per_eval` performs, in order:
`pipeline.get`, the pmapped `learn` update, `unreplicate` of the new
parameters, and `source.update(...)` for every source in `params_sources`.
Parameters are abstracted to a type `P`, batches to `B`; the pipeline is the
FIFO stream `batches`, indexed by how many `get` calls have happened. -/

/-- State of the learner loop: how many batches have been pulled from the
pipeline, the current (replicated) learner params, and the snapshot currently
held by each `ParamsSource` in `params_sources`. -/
structure LearnerLoopState (P : Type) where
  pulled : ℕ
  params : P
  sources : List P

/-- One iteration of `for _update in range(config.system.num_updates_per_eval)`:
pull a batch, run the gradient update, unreplicate the new params and publish
them to every `ParamsSource` via `source.update(...)`. -/
def learnerStep {P B : Type} (learn : P → B → P) (unrep : P → P) (batches : ℕ → B)
    (s : LearnerLoopState P) : LearnerLoopState P :=
  let batch := batches s.pulled
  let newParams := learn s.params batch
  let published := unrep newParams
  { pulled := s.pulled + 1, params := newParams,
    sources := s.sources.map (fun _ => published) }

/-- The learner's inner loop, running `n` update iterations. -/
def learnerLoop {P B : Type} (learn : P → B → P) (unrep : P → P) (batches : ℕ → B) :
    ℕ → LearnerLoopState P → LearnerLoopState P
  | 0, s => s
  | Nat.succ m, s => learnerLoop learn unrep batches m (learnerStep learn unrep batches s)

/-! ## Theorems -/

/-- Closed form of `_compute_cumulative_quantities` on one leaf, for any
window length `k ≥ 1`. -/
theorem computeCumulativeQuantities_eq (rewards discounts : ℕ → ℚ) (sd : ℚ) :
    ∀ k, 1 ≤ k →
      computeCumulativeQuantities k rewards discounts sd
        = (∑ i ∈ Finset.range k, rewards i * ∏ j ∈ Finset.range i, (sd * discounts j),
           sd ^ (k - 1) * ∏ j ∈ Finset.range k, discounts j) := by
  have hprod : ∀ n, ∏ j ∈ Finset.range n, (sd * discounts j)
      = sd ^ n * ∏ j ∈ Finset.range n, discounts j := by
    intro n
    rw [Finset.prod_mul_distrib, Finset.prod_const, Finset.card_range]
  intro k hk
  induction k, hk using Nat.le_induction with
  | base =>
      simp [computeCumulativeQuantities]
  | succ k hk ih =>
      obtain ⟨m, rfl⟩ : ∃ m, k = m + 1 := ⟨k - 1, by omega⟩
      have hcat : List.range' 1 (m + 1) = List.range' 1 m ++ [m + 1] := by
        simpa [Nat.add_comm] using List.range'_1_concat 1 m
      have hfold :
          computeCumulativeQuantities (m + 1 + 1) rewards discounts sd
            = cumStep rewards discounts sd
                (computeCumulativeQuantities (m + 1) rewards discounts sd) (m + 1) := by
        simp [computeCumulativeQuantities, hcat]
      rw [hfold, ih]
      simp only [cumStep, Finset.sum_range_succ, Finset.prod_range_succ, hprod,
        Prod.mk.injEq, Nat.add_sub_cancel]
      constructor
      · ring
      · ring

/-- C1: for every `n_step ≥ 1` and reward/discount window of length `k` with
`1 ≤ k ≤ n_step`, `_compute_cumulative_quantities` returns an `n_step_return`
equal to `∑ i < k, reward i * ∏ j < i, (self_discount * discount j)` and a
`total_discount` equal to `self_discount ^ (k - 1) * ∏ j < k, discount j`,
i.e. `total_discount` carries exactly `k - 1` factors of the agent's own
discount, one fewer than the window length. -/
theorem nstep_return_total_discount_closed_form
    (n_step k : ℕ) (rewards discounts : ℕ → ℚ) (sd : ℚ)
    (_hn : 1 ≤ n_step) (hk : 1 ≤ k) (_hkn : k ≤ n_step) :
    (computeCumulativeQuantities k rewards discounts sd).1
        = ∑ i ∈ Finset.range k, rewards i * ∏ j ∈ Finset.range i, (sd * discounts j)
      ∧ (computeCumulativeQuantities k rewards discounts sd).2
        = sd ^ (k - 1) * ∏ j ∈ Finset.range k, discounts j := by
  rw [computeCumulativeQuantities_eq rewards discounts sd k hk]
  exact ⟨rfl, rfl⟩

/-- Witness for the previous theorem at `n_step = 3`, `k = 2`,
`rewards = [1, 2]`, `discounts = [1/2, 1/3]`, `self_discount = 9/10`. -/
theorem nstep_return_total_discount_closed_form_witness :
    1 ≤ 3 ∧ 1 ≤ 2 ∧ 2 ≤ 3 ∧
      ((computeCumulativeQuantities 2 (fun i => i + 1)
            (fun i => 1 / (i + 2 : ℚ)) ((9 : ℚ) / 10)).1
          = ∑ i ∈ Finset.range 2, ((i : ℚ) + 1)
              * ∏ j ∈ Finset.range i, ((9 : ℚ) / 10 * (1 / (j + 2 : ℚ)))
        ∧ (computeCumulativeQuantities 2 (fun i => i + 1)
            (fun i => 1 / (i + 2 : ℚ)) ((9 : ℚ) / 10)).2
          = ((9 : ℚ) / 10) ^ (2 - 1) * ∏ j ∈ Finset.range 2, (1 / (j + 2 : ℚ))) :=
  ⟨by norm_num, by norm_num, by norm_num,
    nstep_return_total_discount_closed_form 3 2 (fun i => i + 1)
      (fun i => 1 / (i + 2 : ℚ)) ((9 : ℚ) / 10)
      (by norm_num) (by norm_num) (by norm_num)⟩

/-- The pointer state after `s` completed `add` calls of a live episode, for
configuration `n_step = N`. -/
def midState (N s : ℕ) : TransitionAdder :=
  { n_step := N, first_idx := s - min s N, last_idx := s, episode_steps := s }

/-- One `add` call moves the mid-episode state forward by one step. -/
theorem add_midState (N s : ℕ) : (midState N s).add = midState N (s + 1) := by
  simp only [TransitionAdder.add, midState]
  by_cases h : N ≤ s
  · simp only [if_pos h, TransitionAdder.mk.injEq, and_true, true_and]
    omega
  · simp only [if_neg h, TransitionAdder.mk.injEq, and_true, true_and]
    omega

/-- Effective window size after the `(s+1)`-th `add`: `min (s+1) N`. -/
theorem nStepEff_midState (N s : ℕ) : (midState N s).nStepEff = min s N := by
  simp only [TransitionAdder.nStepEff, midState]
  omega

/-- Running `t` further `add` calls from the mid-episode state: the final
state and the window sizes seen by the triggered writes. -/
theorem runAdds_midState (N : ℕ) :
    ∀ t s, runAdds (midState N s) t
      = (midState N (s + t), (List.range t).map (fun j => min (s + j + 1) N)) := by
  intro t
  induction t with
  | zero => intro s; simp [runAdds]
  | succ t ih =>
      intro s
      show ((runAdds ((midState N s).add) t).1,
            ((midState N s).add).nStepEff :: (runAdds ((midState N s).add) t).2)
          = (midState N (s + (t + 1)), (List.range (t + 1)).map (fun j => min (s + j + 1) N))
      rw [add_midState, ih (s + 1), nStepEff_midState]
      have h1 : s + 1 + t = s + (t + 1) := by omega
      have h2 : (List.range (t + 1)).map (fun j => min (s + j + 1) N)
          = min (s + 1) N :: (List.range t).map (fun j => min (s + 1 + j + 1) N) := by
        rw [List.range_succ_eq_map, List.map_cons, List.map_map]
        have hf : ((fun j => min (s + j + 1) N) ∘ Nat.succ)
            = fun j => min (s + 1 + j + 1) N := by
          funext j
          simp only [Function.comp]
          omega
        rw [hf]
      rw [h1, h2]

/-- The sizes emitted by the `_write_last` loop running from `first` with a
gap of `last - first = d`: `d, d - 1, ..., 1`. -/
theorem writeLastGo_eq :
    ∀ d first last, last - first = d →
      writeLastGo last first d = (List.range d).map (fun i => d - i) := by
  intro d
  induction d with
  | zero => intro first last _; rfl
  | succ d ih =>
      intro first last h
      show (last - first) :: writeLastGo last (first + 1) d
          = (List.range (d + 1)).map (fun i => d + 1 - i)
      rw [ih (first + 1) last (by omega), List.range_succ_eq_map, List.map_cons,
        List.map_map]
      have h2 : ((fun i => d + 1 - i) ∘ Nat.succ) = fun i => d - i := by
        funext i
        simp [Function.comp]
      rw [h, h2]
      simp

/-- Splitting the per-`add` window sizes of an episode of length `T ≥ N ≥ 1`:
sizes grow `1, ..., N - 1` and then stay at the full `N`. -/
theorem map_min_range_split (N T : ℕ) (h1 : 1 ≤ N) (h2 : N ≤ T) :
    (List.range T).map (fun j => min (j + 1) N)
      = (List.range (N - 1)).map (fun j => j + 1) ++ List.replicate (T - N + 1) N := by
  have hT : T = (N - 1) + (T - N + 1) := by omega
  conv_lhs => rw [hT]
  rw [List.range_add, List.map_append, List.map_map]
  congr 1
  · apply List.map_congr_left
    intro j hj
    have := List.mem_range.mp hj
    omega
  · have hc : ((fun j => min (j + 1) N) ∘ (fun j => (N - 1) + j)) = fun _ => N := by
      funext j
      simp only [Function.comp]
      omega
    rw [hc, List.map_const', List.length_range]

/-- The final invariant characterization of an episode's emitted window
sizes: shared backbone for the schedule theorem. -/
theorem episodeWriteSizes_eq (N T : ℕ) (h1 : 1 ≤ N) (h2 : N ≤ T) :
    episodeWriteSizes N T
      = ((List.range (N - 1)).map (fun j => j + 1)
          ++ List.replicate (T - N + 1) N)
        ++ (List.range (N - 1)).map (fun i => N - 1 - i) := by
  have hinit : initAdder N = midState N 0 := by
    simp [initAdder, midState]
  have hrun := runAdds_midState N T 0
  simp only [Nat.zero_add] at hrun
  have hlast : (midState N T).writeLastSizes
      = (List.range (N - 1)).map (fun i => N - 1 - i) := by
    have hmin : min T N = N := by omega
    show writeLastGo T ((T - min T N) + 1) (T - ((T - min T N) + 1)) = _
    rw [hmin]
    have hgap : T - (T - N + 1) = N - 1 := by omega
    rw [hgap, writeLastGo_eq (N - 1) (T - N + 1) T (by omega)]
  show (runAdds (initAdder N) T).2 ++ (runAdds (initAdder N) T).1.writeLastSizes
      = _
  rw [hinit, hrun, hlast, map_min_range_split N T h1 h2]

/-- C2 counterexample: with `n_step = 3` and an episode of length `T = 5`
the adder emits 7 transitions (sizes `1, 2, 3, 3, 3, 2, 1`), not 5. -/
theorem episode_schedule_counterexample :
    episodeWriteSizes 3 5 = [1, 2, 3, 3, 3, 2, 1]
      ∧ (episodeWriteSizes 3 5).length ≠ 5 := by
  constructor
  · rfl
  · decide

/-- C2 (amended): an episode of length `T` with `n_step = N ≤ T` produces
exactly `T + N - 1` transitions, in this order: the first `N - 1` with
effective window sizes `1, 2, ..., N - 1`, then `T - N + 1` transitions of
full size `N`, then the tail transitions emitted by `_write_last` with sizes
`N - 1, N - 2, ..., 1`. -/
theorem episode_transition_schedule (N T : ℕ) (h1 : 1 ≤ N) (h2 : N ≤ T) :
    episodeWriteSizes N T
      = ((List.range (N - 1)).map (fun j => j + 1)
          ++ List.replicate (T - N + 1) N)
        ++ (List.range (N - 1)).map (fun i => N - 1 - i)
      ∧ (episodeWriteSizes N T).length = T + N - 1 := by
  refine ⟨episodeWriteSizes_eq N T h1 h2, ?_⟩
  rw [episodeWriteSizes_eq N T h1 h2]
  simp only [List.length_append, List.length_map, List.length_range,
    List.length_replicate]
  omega

/-- Witness for the schedule theorem at `N = 3`, `T = 5`. -/
theorem episode_transition_schedule_witness :
    1 ≤ 3 ∧ 3 ≤ 5 ∧
      (episodeWriteSizes 3 5
          = ((List.range (3 - 1)).map (fun j => j + 1)
              ++ List.replicate (5 - 3 + 1) 3)
            ++ (List.range (3 - 1)).map (fun i => 3 - 1 - i)
        ∧ (episodeWriteSizes 3 5).length = 5 + 3 - 1) :=
  ⟨by decide, by decide, episode_transition_schedule 3 5 (by decide) (by decide)⟩

/-- C5: the window-pointer invariant `0 ≤ first_idx ≤ last_idx` and
`last_idx - first_idx ≤ n_step` holds after construction and is preserved by
every `add` and every `reset`; `add` always advances `last_idx` by one and
advances `first_idx` by one exactly when the buffered window has already
reached the full size `n_step`; `reset` restores `first_idx = last_idx = 0`;
consequently the effective window `_n_step` stays between `1` and `n_step`
after any `add`. -/
theorem window_pointer_invariant (a : TransitionAdder) (n : ℕ)
    (hinv : adderInv a) (hn : 1 ≤ a.n_step) :
    adderInv (initAdder n)
      ∧ adderInv a.add ∧ adderInv a.reset
      ∧ (a.first_idx ≤ a.last_idx ∧ a.last_idx - a.first_idx ≤ a.n_step)
      ∧ a.add.last_idx = a.last_idx + 1
      ∧ (a.add.first_idx = a.first_idx + 1 ↔ a.last_idx - a.first_idx = a.n_step)
      ∧ a.reset.first_idx = 0 ∧ a.reset.last_idx = 0
      ∧ 1 ≤ a.add.nStepEff ∧ a.add.nStepEff ≤ a.n_step := by
  obtain ⟨hs, hf⟩ := hinv
  by_cases h : a.n_step ≤ a.episode_steps <;>
    simp only [adderInv, TransitionAdder.add, TransitionAdder.reset,
      TransitionAdder.nStepEff, initAdder, h, if_true, if_false, ite_true,
      ite_false, true_and, and_true, iff_true, true_iff] <;>
    omega

/-- Witness for the window-pointer invariant theorem: the state reached after
two `add` calls with `n_step = 2`. -/
theorem window_pointer_invariant_witness :
    adderInv ((initAdder 2).add.add) ∧ 1 ≤ ((initAdder 2).add.add).n_step ∧
      (adderInv (initAdder 7)
        ∧ adderInv ((initAdder 2).add.add).add ∧ adderInv ((initAdder 2).add.add).reset
        ∧ (((initAdder 2).add.add).first_idx ≤ ((initAdder 2).add.add).last_idx
            ∧ ((initAdder 2).add.add).last_idx - ((initAdder 2).add.add).first_idx
                ≤ ((initAdder 2).add.add).n_step)
        ∧ ((initAdder 2).add.add).add.last_idx = ((initAdder 2).add.add).last_idx + 1
        ∧ (((initAdder 2).add.add).add.first_idx = ((initAdder 2).add.add).first_idx + 1
            ↔ ((initAdder 2).add.add).last_idx - ((initAdder 2).add.add).first_idx
                = ((initAdder 2).add.add).n_step)
        ∧ ((initAdder 2).add.add).reset.first_idx = 0
        ∧ ((initAdder 2).add.add).reset.last_idx = 0
        ∧ 1 ≤ ((initAdder 2).add.add).add.nStepEff
        ∧ ((initAdder 2).add.add).add.nStepEff ≤ ((initAdder 2).add.add).n_step) :=
  ⟨by constructor <;> decide, by decide,
    window_pointer_invariant ((initAdder 2).add.add) 7
      (by constructor <;> decide) (by decide)⟩

/-- The insertion list built by the dict comprehension, filtered by key,
is the filtered agent list mapped into pairs. -/
theorem pyDictGet_build (agents : List String) (nk : String → String) (k : String) :
    pyDictGet (buildTransNetsAgent agents nk) k
      = (agents.filter (fun a => nk a == k)).getLast? := by
  unfold pyDictGet buildTransNetsAgent
  rw [List.filter_map, List.getLast?_map]
  have hcomp : ((fun p : String × String => p.1 == k) ∘ fun agent => (nk agent, agent))
      = fun a => nk a == k := rfl
  rw [hcomp, Option.map_map]
  have hsnd : (Prod.snd ∘ fun agent : String => (nk agent, agent)) = id := rfl
  rw [hsnd, Option.map_id]
  rfl

/-- A successful dict lookup returns an agent of the list that is assigned
the looked-up key. -/
theorem pyDictGet_build_some (agents : List String) (nk : String → String)
    (k a : String) (h : pyDictGet (buildTransNetsAgent agents nk) k = some a) :
    a ∈ agents ∧ nk a = k := by
  rw [pyDictGet_build] at h
  have hm : a ∈ agents.filter (fun a => nk a == k) :=
    List.mem_of_mem_getLast? (h ▸ rfl)
  have := List.mem_filter.mp hm
  exact ⟨this.1, by simpa using this.2⟩

/-- Membership test of the built dict agrees with key assignment. -/
theorem pyDictHasKey_build (agents : List String) (nk : String → String) (k : String) :
    pyDictHasKey (buildTransNetsAgent agents nk) k = true
      ↔ keyAssigned agents nk k := by
  unfold pyDictHasKey buildTransNetsAgent keyAssigned
  constructor
  · intro h
    obtain ⟨p, hp, hpk⟩ := List.any_eq_true.mp h
    obtain ⟨a, ha, rfl⟩ := List.mem_map.mp hp
    exact ⟨a, ha, by simpa using hpk⟩
  · rintro ⟨a, ha, hk⟩
    exact List.any_eq_true.mpr
      ⟨(nk a, a), List.mem_map.mpr ⟨a, ha, rfl⟩, by simpa using hk⟩

/-- A present key has a successful dict lookup. -/
theorem pyDictGet_isSome_of_hasKey (d : List (String × String)) (k : String)
    (h : pyDictHasKey d k = true) : (pyDictGet d k).isSome := by
  unfold pyDictHasKey at h
  have hne : d.filter (fun p => p.1 == k) ≠ [] := by
    intro hnil
    obtain ⟨p, hp, hpk⟩ := List.any_eq_true.mp h
    have hmem : p ∈ d.filter (fun p => p.1 == k) := List.mem_filter.mpr ⟨hp, hpk⟩
    rw [hnil] at hmem
    exact absurd hmem (List.not_mem_nil p)
  have hsome := List.getLast?_isSome.mpr hne
  unfold pyDictGet
  cases hl : (d.filter (fun p => p.1 == k)).getLast? with
  | none => rw [hl] at hsome; exact absurd hsome (by simp)
  | some p => rfl

/-- The reindexing loop only appends to the routed dicts and never touches
`extras` / `next_extras`; on success every looked-up key is present, every
touched agent slot exists, and each of the five copied fields extends the
accumulator with the slots `(agents[i+j], field (srcAgent d ks[j]))`. -/
theorem reindexGo_spec {V : Type} (t : SrcTransition V) (agents : List String)
    (d : List (String × String)) :
    ∀ (ks : List String) (i : ℕ) (acc r : RoutedTransition V),
      reindexGo t agents d i ks acc = .ok r →
      (∀ j, j < ks.length → i + j < agents.length)
      ∧ (∀ k ∈ ks, (pyDictGet d k).isSome)
      ∧ r.observation = acc.observation
          ++ ((agents.drop i).take ks.length).zip
              (ks.map (fun k => t.observation (srcAgent d k)))
      ∧ r.action = acc.action
          ++ ((agents.drop i).take ks.length).zip
              (ks.map (fun k => t.action (srcAgent d k)))
      ∧ r.reward = acc.reward
          ++ ((agents.drop i).take ks.length).zip
              (ks.map (fun k => t.reward (srcAgent d k)))
      ∧ r.discount = acc.discount
          ++ ((agents.drop i).take ks.length).zip
              (ks.map (fun k => t.discount (srcAgent d k)))
      ∧ r.next_observation = acc.next_observation
          ++ ((agents.drop i).take ks.length).zip
              (ks.map (fun k => t.next_observation (srcAgent d k)))
      ∧ r.extras = acc.extras ∧ r.next_extras = acc.next_extras := by
  intro ks
  induction ks with
  | nil =>
      intro i acc r h
      have hr : acc = r := by
        simpa [reindexGo] using h
      subst hr
      simp
  | cons k ks ih =>
      intro i acc r h
      unfold reindexGo at h
      cases hget : pyDictGet d k with
      | none => rw [hget] at h; exact absurd h (by simp)
      | some cur =>
        rw [hget] at h
        cases hidx : agents[i]? with
        | none => rw [hidx] at h; exact absurd h (by simp)
        | some want =>
          rw [hidx] at h
          obtain ⟨hlen, hkeys, hobs, hact, hrew, hdis, hnobs, hex, hnex⟩ :=
            ih (i + 1) _ r h
          have hilt : i < agents.length := by
            have := List.getElem?_eq_some.mp hidx
            exact this.1
          have hdrop : agents.drop i = want :: agents.drop (i + 1) := by
            rw [List.drop_eq_getElem_cons hilt, (List.getElem?_eq_some.mp hidx).2]
          have hsrc : srcAgent d k = cur := by
            unfold srcAgent
            rw [hget]
            rfl
          have hzip : ∀ (f : String → V),
              ((agents.drop i).take (k :: ks).length).zip
                  ((k :: ks).map (fun k => f (srcAgent d k)))
                = (want, f cur)
                    :: ((agents.drop (i + 1)).take ks.length).zip
                        (ks.map (fun k => f (srcAgent d k))) := by
            intro f
            rw [hdrop]
            simp [hsrc]
          refine ⟨?_, ?_, ?_, ?_, ?_, ?_, ?_, ?_, ?_⟩
          · intro j hj
            cases j with
            | zero => simpa using hilt
            | succ j' =>
                have := hlen j' (by simpa using hj)
                omega
          · intro k' hk'
            rcases List.mem_cons.mp hk' with hk' | hk'
            · subst hk'; rw [hget]; rfl
            · exact hkeys k' hk'
          · rw [hobs, hzip]
            simp
          · rw [hact, hzip]
            simp
          · rw [hrew, hzip]
            simp
          · rw [hdis, hzip]
            simp
          · rw [hnobs, hzip]
            simp
          · exact hex
          · exact hnex

/-- The reindexing loop succeeds when every required key is present in the
dict and the agent list is long enough. -/
theorem reindexGo_ok {V : Type} (t : SrcTransition V) (agents : List String)
    (d : List (String × String)) :
    ∀ (ks : List String) (i : ℕ) (acc : RoutedTransition V),
      (∀ k ∈ ks, (pyDictGet d k).isSome) → i + ks.length ≤ agents.length →
      ∃ r, reindexGo t agents d i ks acc = .ok r := by
  intro ks
  induction ks with
  | nil => intro i acc _ _; exact ⟨acc, rfl⟩
  | cons k ks ih =>
      intro i acc hkeys hlen
      obtain ⟨cur, hcur⟩ :=
        Option.isSome_iff_exists.mp (hkeys k (List.mem_cons_self k ks))
      have hi : i < agents.length := by
        simp only [List.length_cons] at hlen
        omega
      have hidx : agents[i]? = some agents[i] := List.getElem?_eq_getElem hi
      unfold reindexGo
      rw [hcur, hidx]
      exact ih (i + 1) _ (fun k' hk' => hkeys k' (List.mem_cons_of_mem _ hk'))
        (by simp only [List.length_cons] at hlen; omega)

/-- With a nonempty config that contains the table, the guard reduces to the
`all`-test over the table\'s required keys. -/
theorem tableCheck_lookup (m : List (String × List String)) (table : String)
    (d : List (String × String)) (req : List String)
    (hlk : List.lookup table m = some req) :
    tableCheck (some m) table d = .ok (req.all (fun k => pyDictHasKey d k)) := by
  have hne : m.isEmpty = false := by
    cases m with
    | nil => simp [List.lookup] at hlk
    | cons p m2 => rfl
  show (if m.isEmpty = true then (Except.ok true : Except PyErr Bool)
        else match List.lookup table m with
          | none => .error .keyError
          | some req => .ok (req.all (fun k => pyDictHasKey d k))) = _
  rw [hne, hlk]
  rfl

/-- The matched branch of the table loop re-evaluates the config subscript:
with the table present it runs the reindexing loop from empty dicts. -/
theorem routeOne_some {V : Type} (m : List (String × List String)) (table : String)
    (agents : List String) (t : SrcTransition V) (req : List String)
    (hlk : List.lookup table m = some req) :
    routeOne (some m) table agents t
      = reindexGo t agents (buildTransNetsAgent agents t.netKeys) 0 req (emptyRouted V) := by
  show (match List.lookup table m with
        | none => (Except.error PyErr.keyError : Except PyErr (RoutedTransition V))
        | some req =>
            reindexGo t agents (buildTransNetsAgent agents t.netKeys) 0 req (emptyRouted V)) = _
  rw [hlk]

/-- The code\'s `all`-test over the built dict coincides with the spec\'s
full-required-list-present condition. -/
theorem all_hasKey_iff (agents : List String) (nk : String → String)
    (req : List String) :
    (req.all (fun k => pyDictHasKey (buildTransNetsAgent agents nk) k) = true)
      ↔ tableSatisfied agents nk req := by
  rw [List.all_eq_true]
  unfold tableSatisfied
  constructor
  · intro h k hk
    exact (pyDictHasKey_build agents nk k).mp (h k hk)
  · intro h k hk
    exact (pyDictHasKey_build agents nk k).mpr (h k hk)

/-- When no table of the priority mapping has its required key list satisfied
(each table being present in the nonempty config), the loop skips every table
and ends with the `created_item` flag unchanged. -/
theorem writeTablesGo_all_unsat {V : Type} (m : List (String × List String))
    (agents : List String) (t : SrcTransition V) :
    ∀ (tables : List (String × ℚ)) (created : Bool)
      (items : List (String × ℚ × RoutedTransition V)),
      (∀ tp ∈ tables, ∃ req, List.lookup tp.1 m = some req
          ∧ ¬ tableSatisfied agents t.netKeys req) →
      writeTablesGo (some m) agents t tables created items
        = if created then .ok items else .error (.validationError agents) := by
  intro tables
  induction tables with
  | nil => intro created items _; rfl
  | cons tp rest ih =>
      obtain ⟨table, pr⟩ := tp
      intro created items hall
      obtain ⟨req, hlk0, hsat⟩ := hall (table, pr) (List.mem_cons_self _ _)
      have hlk : List.lookup table m = some req := hlk0
      have hfalse : req.all
          (fun k => pyDictHasKey (buildTransNetsAgent agents t.netKeys) k) = false := by
        cases h : req.all
            (fun k => pyDictHasKey (buildTransNetsAgent agents t.netKeys) k) with
        | false => rfl
        | true => exact absurd ((all_hasKey_iff agents t.netKeys req).mp h) hsat
      unfold writeTablesGo
      rw [tableCheck_lookup m table _ req hlk, hfalse]
      exact ih created items (fun tp2 h2 => hall tp2 (List.mem_cons_of_mem _ h2))

/-- Once the `created_item` flag is set, the loop finishes with an `ok`
result whose item list extends the accumulated one. -/
theorem writeTablesGo_created {V : Type} (m : List (String × List String))
    (agents : List String) (t : SrcTransition V) :
    ∀ (tables : List (String × ℚ)),
      (∀ tp ∈ tables, ∃ req, List.lookup tp.1 m = some req
          ∧ req.length ≤ agents.length) →
      ∀ items, ∃ res,
        writeTablesGo (some m) agents t tables true items = .ok res
          ∧ items.length ≤ res.length := by
  intro tables
  induction tables with
  | nil => intro _ items; exact ⟨items, rfl, le_refl _⟩
  | cons tp rest ih =>
      obtain ⟨table, pr⟩ := tp
      intro hcov items
      obtain ⟨req, hlk0, hlen⟩ := hcov (table, pr) (List.mem_cons_self _ _)
      have hlk : List.lookup table m = some req := hlk0
      have hcov2 := fun tp2 h2 => hcov tp2 (List.mem_cons_of_mem _ h2)
      unfold writeTablesGo
      rw [tableCheck_lookup m table _ req hlk]
      cases hall : req.all
          (fun k => pyDictHasKey (buildTransNetsAgent agents t.netKeys) k) with
      | false => exact ih hcov2 items
      | true =>
          have hkeys : ∀ k ∈ req,
              (pyDictGet (buildTransNetsAgent agents t.netKeys) k).isSome := by
            intro k hk
            exact pyDictGet_isSome_of_hasKey _ _ (List.all_eq_true.mp hall k hk)
          obtain ⟨r, hr⟩ := reindexGo_ok t agents _ req 0 (emptyRouted V) hkeys
            (by simpa using hlen)
          rw [(routeOne_some m table agents t req hlk).trans hr]
          obtain ⟨res, hres, hreslen⟩ := ih hcov2 (items ++ [(table, pr, r)])
          refine ⟨res, hres, ?_⟩
          simp only [List.length_append, List.length_singleton] at hreslen
          omega

/-- If some table of the priority mapping is matched, the loop returns `ok`
and strictly extends the item list. -/
theorem writeTablesGo_of_match {V : Type} (m : List (String × List String))
    (agents : List String) (t : SrcTransition V) :
    ∀ (tables : List (String × ℚ)),
      (∀ tp ∈ tables, ∃ req, List.lookup tp.1 m = some req
          ∧ req.length ≤ agents.length) →
      (∃ tp ∈ tables, tableMatchesCfg m agents t.netKeys tp.1) →
      ∀ (created : Bool) (items : List (String × ℚ × RoutedTransition V)),
        ∃ res, writeTablesGo (some m) agents t tables created items = .ok res
          ∧ items.length < res.length := by
  intro tables
  induction tables with
  | nil =>
      intro _ hmatch created items
      obtain ⟨tp, htp, _⟩ := hmatch
      exact absurd htp (List.not_mem_nil tp)
  | cons tp rest ih =>
      obtain ⟨table, pr⟩ := tp
      intro hcov hmatch created items
      obtain ⟨req, hlk0, hlen⟩ := hcov (table, pr) (List.mem_cons_self _ _)
      have hlk : List.lookup table m = some req := hlk0
      have hcov2 := fun tp2 h2 => hcov tp2 (List.mem_cons_of_mem _ h2)
      unfold writeTablesGo
      rw [tableCheck_lookup m table _ req hlk]
      cases hall : req.all
          (fun k => pyDictHasKey (buildTransNetsAgent agents t.netKeys) k) with
      | true =>
          have hkeys : ∀ k ∈ req,
              (pyDictGet (buildTransNetsAgent agents t.netKeys) k).isSome := by
            intro k hk
            exact pyDictGet_isSome_of_hasKey _ _ (List.all_eq_true.mp hall k hk)
          obtain ⟨r, hr⟩ := reindexGo_ok t agents _ req 0 (emptyRouted V) hkeys
            (by simpa using hlen)
          rw [(routeOne_some m table agents t req hlk).trans hr]
          obtain ⟨res, hres, hreslen⟩ :=
            writeTablesGo_created m agents t rest hcov2 (items ++ [(table, pr, r)])
          refine ⟨res, hres, ?_⟩
          simp only [List.length_append, List.length_singleton] at hreslen
          omega
      | false =>
          have hrest : ∃ tp2 ∈ rest, tableMatchesCfg m agents t.netKeys tp2.1 := by
            obtain ⟨tp2, htp2, hmt⟩ := hmatch
            rcases List.mem_cons.mp htp2 with heq | hin
            · subst heq
              obtain ⟨req2, hlk2, hsat2⟩ := hmt
              have hlk3 : List.lookup table m = some req2 := hlk2
              rw [hlk] at hlk3
              obtain rfl := Option.some.inj hlk3
              have htrue := (all_hasKey_iff agents t.netKeys req).mpr hsat2
              rw [hall] at htrue
              simp at htrue
            · exact ⟨tp2, hin, hmt⟩
          exact ih hcov2 hrest created items

/-- Routing a transition with no `table_net_config` reaches the `None`
subscript in the reindexing header for the first table. -/
theorem writeTables_none_eq {V : Type} (tb : String) (pr : ℚ)
    (rest : List (String × ℚ)) (agents : List String) (t : SrcTransition V) :
    writeTables none ((tb, pr) :: rest) agents t = .error .typeError := rfl

/-- A successfully routed transition has empty `extras` and `next_extras`. -/
theorem routeOne_extras {V : Type} (cfg : Option (List (String × List String)))
    (table : String) (agents : List String) (t : SrcTransition V)
    (r : RoutedTransition V) (h : routeOne cfg table agents t = .ok r) :
    r.extras = [] ∧ r.next_extras = [] := by
  cases cfg with
  | none => exact Except.noConfusion h
  | some m =>
      cases hlk : List.lookup table m with
      | none =>
          rw [routeOne] at h
          rw [hlk] at h
          exact Except.noConfusion h
      | some req =>
          rw [routeOne_some m table agents t req hlk] at h
          obtain ⟨_, _, _, _, _, _, _, hex, hnex⟩ :=
            reindexGo_spec t agents (buildTransNetsAgent agents t.netKeys) req 0
              (emptyRouted V) r h
          exact ⟨hex, hnex⟩

/-- Every item created by the table loop carries empty `extras` and
`next_extras`, provided the accumulated items do. -/
theorem writeTablesGo_extras {V : Type} (cfg : Option (List (String × List String)))
    (agents : List String) (t : SrcTransition V) :
    ∀ (tables : List (String × ℚ)) (created : Bool)
      (items : List (String × ℚ × RoutedTransition V)),
      (∀ it ∈ items, it.2.2.extras = [] ∧ it.2.2.next_extras = []) →
      ∀ res, writeTablesGo cfg agents t tables created items = .ok res →
      ∀ it ∈ res, it.2.2.extras = [] ∧ it.2.2.next_extras = [] := by
  intro tables
  induction tables with
  | nil =>
      intro created items hitems res hres it hit
      cases created with
      | false => exact Except.noConfusion hres
      | true =>
          obtain rfl : items = res := Except.ok.inj hres
          exact hitems it hit
  | cons tp rest ih =>
      obtain ⟨table, pr⟩ := tp
      intro created items hitems res hres it hit
      unfold writeTablesGo at hres
      cases hchk : tableCheck cfg table (buildTransNetsAgent agents t.netKeys) with
      | error e =>
          rw [hchk] at hres
          exact Except.noConfusion hres
      | ok b =>
          cases b with
          | false =>
              rw [hchk] at hres
              exact ih created items hitems res hres it hit
          | true =>
              rw [hchk] at hres
              cases hro : routeOne cfg table agents t with
              | error e =>
                  rw [hro] at hres
                  exact Except.noConfusion hres
              | ok r =>
                  rw [hro] at hres
                  have hnew : ∀ it2 ∈ items ++ [(table, pr, r)],
                      it2.2.2.extras = [] ∧ it2.2.2.next_extras = [] := by
                    intro it2 hit2
                    rcases List.mem_append.mp hit2 with h2 | h2
                    · exact hitems it2 h2
                    · rcases List.mem_singleton.mp h2 with rfl
                      exact routeOne_extras cfg table agents t r hro
                  exact ih true (items ++ [(table, pr, r)]) hnew res hres it hit

/-- C9: every reindexed transition submitted to a destination table by
`_write` has empty `extras` and `next_extras` mappings: the first-step and
last-step extras carried on the pre-routing transition are dropped from
every routed transition actually written to a table. -/
theorem routed_transitions_have_empty_extras {V : Type}
    (cfg : Option (List (String × List String))) (tables : List (String × ℚ))
    (agents : List String) (t : SrcTransition V)
    (items : List (String × ℚ × RoutedTransition V))
    (h : writeTables cfg tables agents t = .ok items) :
    ∀ it ∈ items, it.2.2.extras = [] ∧ it.2.2.next_extras = [] :=
  writeTablesGo_extras cfg agents t tables false []
    (fun it hit => absurd hit (List.not_mem_nil it)) items h

/-- Witness for the empty-extras theorem on a one-table, one-agent instance. -/
theorem routed_transitions_have_empty_extras_witness :
    writeTables (some [("trainer_0", ["net_0"])]) [("trainer_0", (1 : ℚ))] ["agent_0"]
        (⟨fun _ => (0 : ℕ), fun _ => 1, fun _ => 2, fun _ => 3, fun _ => 4,
          fun _ => "net_0"⟩ : SrcTransition ℕ)
      = .ok [("trainer_0", (1 : ℚ),
          ⟨[("agent_0", 0)], [], [("agent_0", 1)], [("agent_0", 2)], [("agent_0", 3)],
            [("agent_0", 4)], []⟩)]
    ∧ ∀ it ∈ [("trainer_0", (1 : ℚ),
          (⟨[("agent_0", 0)], [], [("agent_0", 1)], [("agent_0", 2)], [("agent_0", 3)],
            [("agent_0", 4)], []⟩ : RoutedTransition ℕ))],
        it.2.2.extras = [] ∧ it.2.2.next_extras = [] :=
  ⟨rfl,
    routed_transitions_have_empty_extras (some [("trainer_0", ["net_0"])])
      [("trainer_0", (1 : ℚ))] ["agent_0"]
      (⟨fun _ => (0 : ℕ), fun _ => 1, fun _ => 2, fun _ => 3, fun _ => 4,
        fun _ => "net_0"⟩ : SrcTransition ℕ) _ rfl⟩

/-- C4 (code bug): with `table_net_config` omitted (`None`) the guard
short-circuits, but the loop body subscripts the `None` config
(`self._table_net_config[table]`), so the first table of the priority
mapping raises a `TypeError` instead of broadcasting the transition. -/
theorem none_config_write_raises_typeerror {V : Type} (tb : String) (pr : ℚ)
    (rest : List (String × ℚ)) (agents : List String) (t : SrcTransition V) :
    writeTables none ((tb, pr) :: rest) agents t = .error .typeError :=
  writeTables_none_eq tb pr rest agents t

/-- C3: with `table_net_config` set (each destination table present in it,
with no more required keys than agents), `_write` raises `ValidationError`
naming the transition's agent keys if and only if no destination table's
full required network-key list is present among the transition's assigned
network keys; a matched transition is routed without error (and at least one
item is created), and with `table_net_config` unset the unrouted check is
never reached (no `ValidationError` is possible). -/
theorem validation_error_iff_no_table_matches {V : Type}
    (m : List (String × List String)) (tables : List (String × ℚ))
    (agents : List String) (t : SrcTransition V)
    (hne : tables ≠ [])
    (hcov : ∀ tp ∈ tables, ∃ req, List.lookup tp.1 m = some req
        ∧ req.length ≤ agents.length) :
    (writeTables (some m) tables agents t = .error (.validationError agents)
        ↔ ∀ tp ∈ tables, ¬ tableMatchesCfg m agents t.netKeys tp.1)
      ∧ ((∃ tp ∈ tables, tableMatchesCfg m agents t.netKeys tp.1) →
          ∃ items, writeTables (some m) tables agents t = .ok items ∧ items ≠ [])
      ∧ (∀ ags, writeTables none tables agents t ≠ .error (.validationError ags)) := by
  refine ⟨⟨?_, ?_⟩, ?_, ?_⟩
  · intro herr
    by_contra hnot
    push_neg at hnot
    obtain ⟨res, hres, _⟩ := writeTablesGo_of_match m agents t tables hcov hnot false []
    unfold writeTables at herr
    rw [hres] at herr
    exact Except.noConfusion herr
  · intro hall
    have hall2 : ∀ tp ∈ tables, ∃ req, List.lookup tp.1 m = some req
        ∧ ¬ tableSatisfied agents t.netKeys req := by
      intro tp htp
      obtain ⟨req, hlk, _⟩ := hcov tp htp
      refine ⟨req, hlk, fun hsat => hall tp htp ⟨req, hlk, hsat⟩⟩
    exact writeTablesGo_all_unsat m agents t tables false [] hall2
  · intro hmatch
    obtain ⟨res, hres, hlen⟩ := writeTablesGo_of_match m agents t tables hcov hmatch false []
    refine ⟨res, hres, ?_⟩
    intro hnil
    rw [hnil] at hlen
    simp at hlen
  · intro ags
    cases tables with
    | nil => exact absurd rfl hne
    | cons tp rest =>
        obtain ⟨tb, pr⟩ := tp
        rw [writeTables_none_eq]
        simp

/-- Witness for the ValidationError characterisation: one table requiring
`net_1` while both agents are assigned `net_0` (the spec's own example). -/
theorem validation_error_iff_no_table_matches_witness :
    ([("trainer_0", (1 : ℚ))] : List (String × ℚ)) ≠ []
    ∧ ((writeTables (some [("trainer_0", ["net_0", "net_1"])])
            [("trainer_0", (1 : ℚ))] ["agent_0", "agent_1"]
            (⟨fun _ => (0 : ℕ), fun _ => 0, fun _ => 0, fun _ => 0, fun _ => 0,
              fun _ => "net_0"⟩ : SrcTransition ℕ)
          = .error (.validationError ["agent_0", "agent_1"])
        ↔ ∀ tp ∈ ([("trainer_0", (1 : ℚ))] : List (String × ℚ)),
            ¬ tableMatchesCfg [("trainer_0", ["net_0", "net_1"])] ["agent_0", "agent_1"]
                (⟨fun _ => (0 : ℕ), fun _ => 0, fun _ => 0, fun _ => 0, fun _ => 0,
                  fun _ => "net_0"⟩ : SrcTransition ℕ).netKeys tp.1)
      ∧ ((∃ tp ∈ ([("trainer_0", (1 : ℚ))] : List (String × ℚ)),
            tableMatchesCfg [("trainer_0", ["net_0", "net_1"])] ["agent_0", "agent_1"]
              (⟨fun _ => (0 : ℕ), fun _ => 0, fun _ => 0, fun _ => 0, fun _ => 0,
                fun _ => "net_0"⟩ : SrcTransition ℕ).netKeys tp.1) →
          ∃ items, writeTables (some [("trainer_0", ["net_0", "net_1"])])
              [("trainer_0", (1 : ℚ))] ["agent_0", "agent_1"]
              (⟨fun _ => (0 : ℕ), fun _ => 0, fun _ => 0, fun _ => 0, fun _ => 0,
                fun _ => "net_0"⟩ : SrcTransition ℕ) = .ok items ∧ items ≠ [])
      ∧ (∀ ags, writeTables none [("trainer_0", (1 : ℚ))] ["agent_0", "agent_1"]
          (⟨fun _ => (0 : ℕ), fun _ => 0, fun _ => 0, fun _ => 0, fun _ => 0,
            fun _ => "net_0"⟩ : SrcTransition ℕ) ≠ .error (.validationError ags))) :=
  ⟨by decide,
    validation_error_iff_no_table_matches [("trainer_0", ["net_0", "net_1"])]
      [("trainer_0", (1 : ℚ))] ["agent_0", "agent_1"]
      (⟨fun _ => (0 : ℕ), fun _ => 0, fun _ => 0, fun _ => 0, fun _ => 0,
        fun _ => "net_0"⟩ : SrcTransition ℕ)
      (by decide)
      (by
        intro tp htp
        rcases List.mem_singleton.mp htp with rfl
        exact ⟨["net_0", "net_1"], rfl, by decide⟩)⟩

/-- Slot `i` of a successfully reindexed transition pairs the `i`-th agent in
sorted order with the field data of the agent produced by the dict lookup of
the `i`-th required key. -/
theorem reindexGo_slot {V : Type} (t : SrcTransition V) (agents req : List String)
    (routed : RoutedTransition V)
    (hok : reindexGo t agents (buildTransNetsAgent agents t.netKeys) 0 req
        (emptyRouted V) = .ok routed)
    (i : ℕ) (hi : i < req.length) (cur : String)
    (hcur : pyDictGet (buildTransNetsAgent agents t.netKeys) (req.get ⟨i, hi⟩)
        = some cur) :
    ∃ hia : i < agents.length,
      routed.observation[i]? = some (agents.get ⟨i, hia⟩, t.observation cur)
      ∧ routed.action[i]? = some (agents.get ⟨i, hia⟩, t.action cur)
      ∧ routed.reward[i]? = some (agents.get ⟨i, hia⟩, t.reward cur)
      ∧ routed.discount[i]? = some (agents.get ⟨i, hia⟩, t.discount cur)
      ∧ routed.next_observation[i]? = some (agents.get ⟨i, hia⟩, t.next_observation cur) := by
  obtain ⟨hlen, hkeys, hobs, hact, hrew, hdis, hnobs, _, _⟩ :=
    reindexGo_spec t agents (buildTransNetsAgent agents t.netKeys) req 0
      (emptyRouted V) routed hok
  have hia : i < agents.length := by
    have := hlen i hi
    omega
  have hfield : ∀ (f : String → V),
      (((agents.drop 0).take req.length).zip
          (req.map (fun k =>
            f (srcAgent (buildTransNetsAgent agents t.netKeys) k))))[i]?
        = some (agents.get ⟨i, hia⟩, f cur) := by
    intro f
    rw [List.getElem?_zip_eq_some]
    constructor
    · rw [List.drop_zero, List.getElem?_take_of_lt hi]
      exact List.getElem?_eq_getElem hia
    · rw [List.getElem?_map, List.getElem?_eq_getElem hi]
      have hsrc : srcAgent (buildTransNetsAgent agents t.netKeys) req[i] = cur := by
        show srcAgent (buildTransNetsAgent agents t.netKeys) (req.get ⟨i, hi⟩) = cur
        unfold srcAgent
        rw [hcur]
        rfl
      simp [hsrc]
  refine ⟨hia, ?_, ?_, ?_, ?_, ?_⟩
  · rw [hobs]
    simpa [emptyRouted] using hfield t.observation
  · rw [hact]
    simpa [emptyRouted] using hfield t.action
  · rw [hrew]
    simpa [emptyRouted] using hfield t.reward
  · rw [hdis]
    simpa [emptyRouted] using hfield t.discount
  · rw [hnobs]
    simpa [emptyRouted] using hfield t.next_observation

/-- C6: for a table whose required list led to a successful reindexing, agent
slot `i` (the `i`-th agent in sorted agent-id order) holds the observation,
action, reward, discount and next_observation of the agent looked up under
the `i`-th required network key, that agent being one assigned exactly that
key in `extras["network_keys"]`. -/
theorem routed_slot_holds_assigned_agent_data {V : Type} (t : SrcTransition V)
    (agents req : List String) (routed : RoutedTransition V)
    (hok : reindexGo t agents (buildTransNetsAgent agents t.netKeys) 0 req
        (emptyRouted V) = .ok routed)
    (i : ℕ) (hi : i < req.length) :
    ∃ (cur : String) (hia : i < agents.length),
      pyDictGet (buildTransNetsAgent agents t.netKeys) (req.get ⟨i, hi⟩) = some cur
      ∧ cur ∈ agents
      ∧ t.netKeys cur = req.get ⟨i, hi⟩
      ∧ routed.observation[i]? = some (agents.get ⟨i, hia⟩, t.observation cur)
      ∧ routed.action[i]? = some (agents.get ⟨i, hia⟩, t.action cur)
      ∧ routed.reward[i]? = some (agents.get ⟨i, hia⟩, t.reward cur)
      ∧ routed.discount[i]? = some (agents.get ⟨i, hia⟩, t.discount cur)
      ∧ routed.next_observation[i]?
          = some (agents.get ⟨i, hia⟩, t.next_observation cur) := by
  obtain ⟨_, hkeys, _, _, _, _, _, _, _⟩ :=
    reindexGo_spec t agents (buildTransNetsAgent agents t.netKeys) req 0
      (emptyRouted V) routed hok
  obtain ⟨cur, hcur⟩ := Option.isSome_iff_exists.mp
    (hkeys (req.get ⟨i, hi⟩) (req.get_mem i hi))
  obtain ⟨hmem, hkey⟩ := pyDictGet_build_some agents t.netKeys _ cur hcur
  obtain ⟨hia, h1, h2, h3, h4, h5⟩ :=
    reindexGo_slot t agents req routed hok i hi cur hcur
  exact ⟨cur, hia, hcur, hmem, hkey, h1, h2, h3, h4, h5⟩

/-- Witness for the slot theorem: two agents with swapped network keys; slot
0 (keyed by `agent_0`) must hold the data of `agent_1`, the agent assigned
the table's first required key `net_0`. -/
theorem routed_slot_holds_assigned_agent_data_witness :
    ∃ (cur : String) (hia : 0 < (["agent_0", "agent_1"] : List String).length),
      pyDictGet (buildTransNetsAgent ["agent_0", "agent_1"]
          (⟨id, id, id, id, id,
            fun a => if a = "agent_0" then "net_1" else "net_0"⟩
              : SrcTransition String).netKeys)
          ((["net_0", "net_1"] : List String).get ⟨0, by decide⟩) = some cur
      ∧ cur ∈ (["agent_0", "agent_1"] : List String)
      ∧ (⟨id, id, id, id, id,
            fun a => if a = "agent_0" then "net_1" else "net_0"⟩
              : SrcTransition String).netKeys cur
          = (["net_0", "net_1"] : List String).get ⟨0, by decide⟩
      ∧ (⟨[("agent_0", "agent_1"), ("agent_1", "agent_0")], [],
            [("agent_0", "agent_1"), ("agent_1", "agent_0")],
            [("agent_0", "agent_1"), ("agent_1", "agent_0")],
            [("agent_0", "agent_1"), ("agent_1", "agent_0")],
            [("agent_0", "agent_1"), ("agent_1", "agent_0")], []⟩
          : RoutedTransition String).observation[(0 : ℕ)]?
          = some ((["agent_0", "agent_1"] : List String).get ⟨0, hia⟩, id cur)
      ∧ (⟨[("agent_0", "agent_1"), ("agent_1", "agent_0")], [],
            [("agent_0", "agent_1"), ("agent_1", "agent_0")],
            [("agent_0", "agent_1"), ("agent_1", "agent_0")],
            [("agent_0", "agent_1"), ("agent_1", "agent_0")],
            [("agent_0", "agent_1"), ("agent_1", "agent_0")], []⟩
          : RoutedTransition String).action[(0 : ℕ)]?
          = some ((["agent_0", "agent_1"] : List String).get ⟨0, hia⟩, id cur)
      ∧ (⟨[("agent_0", "agent_1"), ("agent_1", "agent_0")], [],
            [("agent_0", "agent_1"), ("agent_1", "agent_0")],
            [("agent_0", "agent_1"), ("agent_1", "agent_0")],
            [("agent_0", "agent_1"), ("agent_1", "agent_0")],
            [("agent_0", "agent_1"), ("agent_1", "agent_0")], []⟩
          : RoutedTransition String).reward[(0 : ℕ)]?
          = some ((["agent_0", "agent_1"] : List String).get ⟨0, hia⟩, id cur)
      ∧ (⟨[("agent_0", "agent_1"), ("agent_1", "agent_0")], [],
            [("agent_0", "agent_1"), ("agent_1", "agent_0")],
            [("agent_0", "agent_1"), ("agent_1", "agent_0")],
            [("agent_0", "agent_1"), ("agent_1", "agent_0")],
            [("agent_0", "agent_1"), ("agent_1", "agent_0")], []⟩
          : RoutedTransition String).discount[(0 : ℕ)]?
          = some ((["agent_0", "agent_1"] : List String).get ⟨0, hia⟩, id cur)
      ∧ (⟨[("agent_0", "agent_1"), ("agent_1", "agent_0")], [],
            [("agent_0", "agent_1"), ("agent_1", "agent_0")],
            [("agent_0", "agent_1"), ("agent_1", "agent_0")],
            [("agent_0", "agent_1"), ("agent_1", "agent_0")],
            [("agent_0", "agent_1"), ("agent_1", "agent_0")], []⟩
          : RoutedTransition String).next_observation[(0 : ℕ)]?
          = some ((["agent_0", "agent_1"] : List String).get ⟨0, hia⟩, id cur) :=
  routed_slot_holds_assigned_agent_data
    (⟨id, id, id, id, id, fun a => if a = "agent_0" then "net_1" else "net_0"⟩
      : SrcTransition String)
    ["agent_0", "agent_1"] ["net_0", "net_1"]
    (⟨[("agent_0", "agent_1"), ("agent_1", "agent_0")], [],
        [("agent_0", "agent_1"), ("agent_1", "agent_0")],
        [("agent_0", "agent_1"), ("agent_1", "agent_0")],
        [("agent_0", "agent_1"), ("agent_1", "agent_0")],
        [("agent_0", "agent_1"), ("agent_1", "agent_0")], []⟩
      : RoutedTransition String)
    rfl 0 (by decide)

/-- C10: when several agents share a network key, the dict comprehension
keeps only the last agent in sorted agent-id order for that key; every slot
of the required list naming that key receives that single agent's data, and
any earlier agent sharing the key is the source of no slot at all. -/
theorem shared_key_keeps_last_sorted_agent {V : Type} (t : SrcTransition V)
    (agents req : List String) (routed : RoutedTransition V) (k a1 a2 : String)
    (hok : reindexGo t agents (buildTransNetsAgent agents t.netKeys) 0 req
        (emptyRouted V) = .ok routed)
    (hlast : (agents.filter (fun a => t.netKeys a == k)).getLast? = some a2)
    (_ha1 : a1 ∈ agents) (hk1 : t.netKeys a1 = k) (hne : a1 ≠ a2)
    (i : ℕ) (hi : i < req.length) (hik : req.get ⟨i, hi⟩ = k) :
    pyDictGet (buildTransNetsAgent agents t.netKeys) k = some a2
      ∧ (∃ hia : i < agents.length,
          routed.observation[i]? = some (agents.get ⟨i, hia⟩, t.observation a2)
          ∧ routed.action[i]? = some (agents.get ⟨i, hia⟩, t.action a2)
          ∧ routed.reward[i]? = some (agents.get ⟨i, hia⟩, t.reward a2)
          ∧ routed.discount[i]? = some (agents.get ⟨i, hia⟩, t.discount a2)
          ∧ routed.next_observation[i]?
              = some (agents.get ⟨i, hia⟩, t.next_observation a2))
      ∧ ∀ j (hj : j < req.length),
          pyDictGet (buildTransNetsAgent agents t.netKeys) (req.get ⟨j, hj⟩)
            ≠ some a1 := by
  have hgetk : pyDictGet (buildTransNetsAgent agents t.netKeys) k = some a2 := by
    rw [pyDictGet_build]
    exact hlast
  have hcur : pyDictGet (buildTransNetsAgent agents t.netKeys)
      (req.get ⟨i, hi⟩) = some a2 := by
    rw [hik]
    exact hgetk
  refine ⟨hgetk, reindexGo_slot t agents req routed hok i hi a2 hcur, ?_⟩
  intro j hj hcontra
  obtain ⟨_, hkj⟩ := pyDictGet_build_some agents t.netKeys _ a1 hcontra
  rw [hk1] at hkj
  rw [hkj] at hgetk
  rw [hcontra] at hgetk
  exact hne (Option.some.inj hgetk)

/-- Witness for the shared-key theorem: `agent_0` and `agent_1` both assigned
`net_0`, `agent_2` assigned `net_1`; the dict keeps `agent_1` for `net_0`,
slot 0 receives `agent_1`'s data and `agent_0` feeds no slot. -/
theorem shared_key_keeps_last_sorted_agent_witness :
    pyDictGet (buildTransNetsAgent ["agent_0", "agent_1", "agent_2"]
        (⟨id, id, id, id, id,
          fun a => if a = "agent_2" then "net_1" else "net_0"⟩
            : SrcTransition String).netKeys) "net_0" = some "agent_1"
      ∧ (∃ hia : 0 < (["agent_0", "agent_1", "agent_2"] : List String).length,
          (⟨[("agent_0", "agent_1"), ("agent_1", "agent_2")], [],
              [("agent_0", "agent_1"), ("agent_1", "agent_2")],
              [("agent_0", "agent_1"), ("agent_1", "agent_2")],
              [("agent_0", "agent_1"), ("agent_1", "agent_2")],
              [("agent_0", "agent_1"), ("agent_1", "agent_2")], []⟩
            : RoutedTransition String).observation[(0 : ℕ)]?
              = some ((["agent_0", "agent_1", "agent_2"] : List String).get ⟨0, hia⟩,
                  id "agent_1")
          ∧ (⟨[("agent_0", "agent_1"), ("agent_1", "agent_2")], [],
              [("agent_0", "agent_1"), ("agent_1", "agent_2")],
              [("agent_0", "agent_1"), ("agent_1", "agent_2")],
              [("agent_0", "agent_1"), ("agent_1", "agent_2")],
              [("agent_0", "agent_1"), ("agent_1", "agent_2")], []⟩
            : RoutedTransition String).action[(0 : ℕ)]?
              = some ((["agent_0", "agent_1", "agent_2"] : List String).get ⟨0, hia⟩,
                  id "agent_1")
          ∧ (⟨[("agent_0", "agent_1"), ("agent_1", "agent_2")], [],
              [("agent_0", "agent_1"), ("agent_1", "agent_2")],
              [("agent_0", "agent_1"), ("agent_1", "agent_2")],
              [("agent_0", "agent_1"), ("agent_1", "agent_2")],
              [("agent_0", "agent_1"), ("agent_1", "agent_2")], []⟩
            : RoutedTransition String).reward[(0 : ℕ)]?
              = some ((["agent_0", "agent_1", "agent_2"] : List String).get ⟨0, hia⟩,
                  id "agent_1")
          ∧ (⟨[("agent_0", "agent_1"), ("agent_1", "agent_2")], [],
              [("agent_0", "agent_1"), ("agent_1", "agent_2")],
              [("agent_0", "agent_1"), ("agent_1", "agent_2")],
              [("agent_0", "agent_1"), ("agent_1", "agent_2")],
              [("agent_0", "agent_1"), ("agent_1", "agent_2")], []⟩
            : RoutedTransition String).discount[(0 : ℕ)]?
              = some ((["agent_0", "agent_1", "agent_2"] : List String).get ⟨0, hia⟩,
                  id "agent_1")
          ∧ (⟨[("agent_0", "agent_1"), ("agent_1", "agent_2")], [],
              [("agent_0", "agent_1"), ("agent_1", "agent_2")],
              [("agent_0", "agent_1"), ("agent_1", "agent_2")],
              [("agent_0", "agent_1"), ("agent_1", "agent_2")],
              [("agent_0", "agent_1"), ("agent_1", "agent_2")], []⟩
            : RoutedTransition String).next_observation[(0 : ℕ)]?
              = some ((["agent_0", "agent_1", "agent_2"] : List String).get ⟨0, hia⟩,
                  id "agent_1"))
      ∧ ∀ j (hj : j < (["net_0", "net_1"] : List String).length),
          pyDictGet (buildTransNetsAgent ["agent_0", "agent_1", "agent_2"]
              (⟨id, id, id, id, id,
                fun a => if a = "agent_2" then "net_1" else "net_0"⟩
                  : SrcTransition String).netKeys)
              ((["net_0", "net_1"] : List String).get ⟨j, hj⟩) ≠ some "agent_0" :=
  shared_key_keeps_last_sorted_agent
    (⟨id, id, id, id, id, fun a => if a = "agent_2" then "net_1" else "net_0"⟩
      : SrcTransition String)
    ["agent_0", "agent_1", "agent_2"] ["net_0", "net_1"]
    (⟨[("agent_0", "agent_1"), ("agent_1", "agent_2")], [],
        [("agent_0", "agent_1"), ("agent_1", "agent_2")],
        [("agent_0", "agent_1"), ("agent_1", "agent_2")],
        [("agent_0", "agent_1"), ("agent_1", "agent_2")],
        [("agent_0", "agent_1"), ("agent_1", "agent_2")], []⟩
      : RoutedTransition String)
    "net_0" "agent_0" "agent_1" rfl (by decide) (by decide) (by decide) (by decide)
    0 (by decide) (by decide)

/-- C7 (code bug): the constructor performs no validation of `n_step`:
constructing with the invalid `n_step = 0` succeeds and yields an operating
adder (its first `add` already advances both pointers), where the class
docstring promises a `ValueError` and the spec a fail-fast
ConfigurationError for `n_step < 1`. -/
theorem constructor_accepts_invalid_n_step :
    initAdder 0
        = { n_step := 0, first_idx := 0, last_idx := 0, episode_steps := 0 }
      ∧ (initAdder 0).add
        = { n_step := 0, first_idx := 1, last_idx := 1, episode_steps := 1 } :=
  ⟨rfl, rfl⟩

/-- C8: after every gradient update of the sebulba learner's inner loop, the
new unreplicated parameters have been published to every `ParamsSource`
before the next batch is pulled from the pipeline: after `u ≥ 1` iterations
every source holds `unreplicate` of the current learner params while only
`u` batches have been pulled. -/
theorem learner_publishes_to_all_sources {P B : Type} (learn : P → B → P)
    (unrep : P → P) (batches : ℕ → B) (s0 : LearnerLoopState P) (u : ℕ)
    (hu : 1 ≤ u) :
    (learnerLoop learn unrep batches u s0).sources
        = List.replicate s0.sources.length
            (unrep (learnerLoop learn unrep batches u s0).params)
      ∧ (learnerLoop learn unrep batches u s0).pulled = s0.pulled + u := by
  induction u, hu using Nat.le_induction generalizing s0 with
  | base =>
      constructor
      · show ((learnerStep learn unrep batches s0).sources) = _
        show (s0.sources.map fun _ =>
            unrep (learn s0.params (batches s0.pulled))) = _
        rw [List.map_const']
        rfl
      · rfl
  | succ u hu ih =>
      have hloop : learnerLoop learn unrep batches (u + 1) s0
          = learnerLoop learn unrep batches u (learnerStep learn unrep batches s0) :=
        rfl
      rw [hloop]
      obtain ⟨h1, h2⟩ := ih (learnerStep learn unrep batches s0)
      refine ⟨?_, ?_⟩
      · rw [h1]
        congr 1
        show (s0.sources.map _).length = s0.sources.length
        rw [List.length_map]
      · rw [h2]
        show s0.pulled + 1 + u = s0.pulled + (u + 1)
        omega

/-- Witness for the learner-publication theorem: two sources, two updates. -/
theorem learner_publishes_to_all_sources_witness :
    1 ≤ 2 ∧
      ((learnerLoop (fun p b => p + b) (fun p => p * 2) (fun i => i + 10)
            2 (⟨0, 0, [5, 7]⟩ : LearnerLoopState ℕ)).sources
          = List.replicate
              ((⟨0, 0, [5, 7]⟩ : LearnerLoopState ℕ).sources).length
              ((fun p => p * 2)
                ((learnerLoop (fun p b => p + b) (fun p => p * 2) (fun i => i + 10)
                  2 (⟨0, 0, [5, 7]⟩ : LearnerLoopState ℕ)).params))
        ∧ (learnerLoop (fun p b => p + b) (fun p => p * 2) (fun i => i + 10)
            2 (⟨0, 0, [5, 7]⟩ : LearnerLoopState ℕ)).pulled
          = (⟨0, 0, [5, 7]⟩ : LearnerLoopState ℕ).pulled + 2) :=
  ⟨by decide,
    learner_publishes_to_all_sources (fun p b => p + b) (fun p => p * 2)
      (fun i => i + 10) (⟨0, 0, [5, 7]⟩ : LearnerLoopState ℕ) 2 (by decide)⟩

end Mava
